import Mathlib

/-!
Verification of the AID (ACI Inconsistency Detector) universe core: a shallow
embedding of `aim/agent/aid/universes/base_universe.py` and
`aim/agent/aid/universes/aim_universe.py`, together with theorems about the
reconciliation engine, the per-object failure ledger, and the AIM-DB universe's
resource hydration and push paths.

Modelling conventions:
* Python dicts are association lists (`List (k × v)`); dict states built by the
  code never carry duplicate keys, and lookups take the first binding.
* The per-tenant delete-vote map is a total function `Tenant → Finset ℕ`
  (universe instances are numbered); a missing dict key is the empty set, which
  matches both `setdefault(tenant, set())` and `get(tenant, set())`.
* Wall-clock time is an integer number of seconds.
* Fallible Python code is `Except`/`Option`; an uncaught exception is an
  `error` value.
* External collaborators (the hash-tree `diff`, the tree manager's
  `find_changed`, the AIM manager's reads and writes, the ACI↔AIM converter)
  are function parameters bundled in environment structures.
-/

deriving instance DecidableEq for Except

namespace Aim

/-- Tenant identifiers. -/
abbrev Tenant := String

/-- A hash-tree resource key: an ordered sequence of segments, each of the
form `"type|name0|name1|..."`. -/
abbrev HKey := List String

/-- Root node of a structured hash tree; the core reads only the `dummy`
marker and the full hash. -/
structure TreeNode where
  dummy : Bool
  full_hash : String
deriving DecidableEq, Repr

/-- A `StructuredHashTree` as the core sees it: the code reads only `root`
(`none` for a tenant with no state). -/
structure StructuredHashTree where
  root : Option TreeNode
deriving DecidableEq, Repr

/-- The default `StructuredHashTree()`: no root. -/
def StructuredHashTree.emptyTree : StructuredHashTree := ⟨none⟩

/-- Result of `tree.diff(other)`: keys to add and keys to remove. -/
structure DiffResult where
  add : List HKey
  remove : List HKey
deriving DecidableEq, Repr

/-- Python `d.get(k)` on an association list: first binding wins. -/
def dictGet {α β : Type} [DecidableEq α] : List (α × β) → α → Option β
  | [], _ => none
  | p :: ps, k => if p.1 = k then some p.2 else dictGet ps k

/-- Python `d.get(k, dflt)`. -/
def dictGetD {α β : Type} [DecidableEq α] (d : List (α × β)) (k : α) (dflt : β) : β :=
  (dictGet d k).getD dflt

/-- Python `d[k] = v`: replace the first binding in place, or append. -/
def dictSet {α β : Type} [DecidableEq α] : List (α × β) → α → β → List (α × β)
  | [], k, v => [(k, v)]
  | p :: ps, k, v => if p.1 = k then (k, v) :: ps else p :: dictSet ps k v

/-- Python `d.pop(k, None)`: drop the first binding of `k`, if any. -/
def dictPop {α β : Type} [DecidableEq α] : List (α × β) → α → List (α × β)
  | [], _ => []
  | p :: ps, k => if p.1 = k then ps else p :: dictPop ps k

/-- Per-tenant delete votes: for each tenant, the set of universe instances
(numbered by `ℕ`) currently voting for its deletion. -/
abbrev VoteMap := Tenant → Finset ℕ

/-- Embedding of `_vote_tenant_for_deletion`:
`delete_candidates.setdefault(tenant, set()).add(self)`. -/
def vote_tenant_for_deletion (selfId : ℕ) (tenant : Tenant) (vm : VoteMap) : VoteMap :=
  fun t => if t = tenant then insert selfId (vm t) else vm t

/-- Embedding of the dissent branch of `_reconcile`:
`delete_candidates.get(tenant, set()).discard(self)`. -/
def discard_vote (selfId : ℕ) (tenant : Tenant) (vm : VoteMap) : VoteMap :=
  fun t => if t = tenant then (vm t).erase selfId else vm t

/-- Collaborators `_reconcile` invokes, with `R` the hydrated-resource type:
the peer's `get_optimized_state` and `get_resources`, the hash-tree library's
`tree.diff(my_tenant_state)` (first argument the receiver tree), and self's
`get_resources_for_delete`. -/
structure ReconcileEnv (R : Type) where
  get_optimized_state : List (Tenant × StructuredHashTree) → List (Tenant × StructuredHashTree)
  diff : StructuredHashTree → StructuredHashTree → DiffResult
  get_resources : List HKey → List R
  get_resources_for_delete : List HKey → List R

/-- Diff-accumulation loop of `_reconcile`: for each tenant in
`keys(my_state) ∩ keys(other_state)` (iterated in `my_state` order), extend
`result[CREATE]` with `difference['add']` and `result[DELETE]` with
`difference['remove']`, where the difference is
`other_state[tenant].diff(my_state.get(tenant, StructuredHashTree()))`. -/
def reconcile_diffs {R : Type} (env : ReconcileEnv R)
    (my other : List (Tenant × StructuredHashTree)) : List HKey × List HKey :=
  let pairs := my.filter (fun p => (dictGet other p.1).isSome)
  ((pairs.map (fun p =>
      (env.diff (dictGetD other p.1 .emptyTree) (dictGetD my p.1 .emptyTree)).add)).flatten,
   (pairs.map (fun p =>
      (env.diff (dictGetD other p.1 .emptyTree) (dictGetD my p.1 .emptyTree)).remove)).flatten)

/-- Truth of Python `not tree.root or tree.root.dummy`. -/
def root_missing_or_dummy (t : StructuredHashTree) : Bool :=
  match t.root with
  | none => true
  | some n => n.dummy

/-- One iteration of the tenant-deletion loop of `_reconcile`, for the pair
`(tenant, tree)` of `my_state`. -/
def reconcile_vote_step (selfId : ℕ) (skip_dummy always_vote_deletion : Bool)
    (other : List (Tenant × StructuredHashTree)) (vm : VoteMap)
    (p : Tenant × StructuredHashTree) : VoteMap :=
  if always_vote_deletion || (skip_dummy && root_missing_or_dummy p.2) then
    vote_tenant_for_deletion selfId p.1 vm
  else if p.2.root.isNone then
    if (dictGet other p.1).isNone || (dictGetD other p.1 .emptyTree).root.isNone then
      vote_tenant_for_deletion selfId p.1 vm
    else
      discard_vote selfId p.1 vm
  else vm

/-- Tenant-deletion voting loop of `_reconcile`, over the pairs of
`my_state`. -/
def reconcile_votes (selfId : ℕ) (skip_dummy always_vote_deletion : Bool)
    (my other : List (Tenant × StructuredHashTree)) (vm : VoteMap) : VoteMap :=
  my.foldl (reconcile_vote_step selfId skip_dummy always_vote_deletion other) vm

/-- Observable outcome of one `_reconcile` call: the boolean it returns, the
argument of the single `push_resources` call (`none` when `push_resources` was
never called), and the delete-vote map afterwards. -/
structure ReconcileOutcome (R : Type) where
  returned : Bool
  pushed : Option (List R × List R)
  votes : VoteMap

/-- Embedding of `HashTreeStoredUniverse._reconcile`. `my` is `self.state`;
the peer state is `other_universe.get_optimized_state(my_state)`. When both
accumulated key lists are empty the universes are in sync and the call returns
`False` without pushing; otherwise the keys are hydrated (creates through the
peer's `get_resources`, deletes through self's `get_resources_for_delete`) and
pushed once. -/
def reconcile_impl {R : Type} (env : ReconcileEnv R) (selfId : ℕ)
    (skip_dummy always_vote_deletion : Bool)
    (my : List (Tenant × StructuredHashTree))
    (delete_candidates : VoteMap) : ReconcileOutcome R :=
  let other := env.get_optimized_state my
  let result := reconcile_diffs env my other
  let votes := reconcile_votes selfId skip_dummy always_vote_deletion my other delete_candidates
  if result.1 = [] ∧ result.2 = [] then
    ⟨false, none, votes⟩
  else
    ⟨true, some (env.get_resources result.1, env.get_resources_for_delete result.2), votes⟩

/-- Embedding of the public `reconcile(other_universe, delete_candidates)`:
`_reconcile` with `skip_dummy` and `always_vote_deletion` unset. -/
def reconcile {R : Type} (env : ReconcileEnv R) (selfId : ℕ)
    (my : List (Tenant × StructuredHashTree)) (delete_candidates : VoteMap) :
    ReconcileOutcome R :=
  reconcile_impl env selfId false false my delete_candidates

/-- Error kinds of `aim.agent.aid.universes.errors`; `other` stands for any
kind outside the handler table (dispatched to `_noop`). -/
inductive AimErrorKind
  | operation_transient
  | unknown
  | operation_critical
  | system_critical
  | other
deriving DecidableEq, Repr

/-- An AIM object as the failure ledger sees it: class name, identity
attribute names, and attribute values. -/
structure AimObject where
  type_name : String
  identity_attributes : List String
  attrs : List (String × String)
deriving DecidableEq, Repr

/-- Embedding of `_get_aim_object_identifier`:
`(type(aim_object).__name__,) + tuple(getattr(aim_object, x) for x in
aim_object.identity_attributes)`. Attribute access is association-list lookup
(identity attributes are set at construction). -/
def get_aim_object_identifier (o : AimObject) : List String :=
  o.type_name :: o.identity_attributes.map (fun x => (dictGet o.attrs x).getD "")

/-- Ledger object identity. -/
abbrev AimId := List String

/-- The mutable state the failure path of `HashTreeStoredUniverse` touches:
the `failure_log` dict, the sequence of `set_resource_sync_error` calls the
manager received (object identity and message), the
`set_resource_sync_synced` calls, and whether `perform_harakiri` ran. -/
structure LedgerState where
  failure_log : List (AimId × (ℕ × Option ℤ))
  sync_errors : List (AimId × String)
  sync_synced : List AimId
  aborted : Bool
deriving DecidableEq, Repr

/-- Fresh ledger state (after `initialize`). -/
def LedgerState.init : LedgerState := ⟨[], [], [], false⟩

/-- Embedding of `_retry_until_max`. The guard keeps Python truthiness of
`not last or curr_time - last >= self.retry_cooldown`: a stored timestamp
equal to `0` is falsy and passes the guard exactly like an absent one. When
the bumped count reaches `max_create_retry` the object is surrendered:
`set_resource_sync_error` and the record is popped. -/
def retry_until_max (max_create_retry : ℕ) (retry_cooldown : ℤ)
    (st : LedgerState) (o : AimObject) (reason : String) (curr_time : ℤ) :
    LedgerState :=
  let aim_id := get_aim_object_identifier o
  let fl := (dictGet st.failure_log aim_id).getD (0, none)
  let bump : LedgerState :=
    let log1 := dictSet st.failure_log aim_id (fl.1 + 1, some curr_time)
    if fl.1 + 1 ≥ max_create_retry then
      { st with failure_log := dictPop log1 aim_id,
                sync_errors := st.sync_errors ++ [(aim_id, reason)] }
    else
      { st with failure_log := log1 }
  match fl.2 with
  | none => bump
  | some l => if l = 0 ∨ curr_time - l ≥ retry_cooldown then bump else st

/-- Embedding of `_surrender_operation`: mark `sync_error` and clear the
record. -/
def surrender_operation (st : LedgerState) (o : AimObject) (reason : String) :
    LedgerState :=
  let aim_id := get_aim_object_identifier o
  { st with sync_errors := st.sync_errors ++ [(aim_id, reason)],
            failure_log := dictPop st.failure_log aim_id }

/-- Embedding of `_fail_agent` (`utils.perform_harakiri`). -/
def fail_agent (st : LedgerState) : LedgerState :=
  { st with aborted := true }

/-- Embedding of `_fail_aim_synchronization`: dispatch through
`error_handlers`, falling back to `_noop` for unlisted kinds. The `operation`
string ('creation' or 'deletion') is used only in log messages. -/
def fail_aim_synchronization (max_create_retry : ℕ) (retry_cooldown : ℤ)
    (st : LedgerState) (o : AimObject) (reason : String) (err : AimErrorKind)
    (curr_time : ℤ) : LedgerState :=
  match err with
  | .operation_transient => retry_until_max max_create_retry retry_cooldown st o reason curr_time
  | .unknown => retry_until_max max_create_retry retry_cooldown st o reason curr_time
  | .operation_critical => surrender_operation st o reason
  | .system_critical => fail_agent st
  | .other => st

/-- Embedding of `creation_failed`. -/
def creation_failed (max_create_retry : ℕ) (retry_cooldown : ℤ)
    (st : LedgerState) (o : AimObject) (reason : String) (err : AimErrorKind)
    (curr_time : ℤ) : LedgerState :=
  fail_aim_synchronization max_create_retry retry_cooldown st o reason err curr_time

/-- Embedding of `deletion_failed` (same handler table). -/
def deletion_failed (max_create_retry : ℕ) (retry_cooldown : ℤ)
    (st : LedgerState) (o : AimObject) (reason : String) (err : AimErrorKind)
    (curr_time : ℤ) : LedgerState :=
  fail_aim_synchronization max_create_retry retry_cooldown st o reason err curr_time

/-- Embedding of `creation_succeeded`: pop the record and mark
`sync_synced`. -/
def creation_succeeded (st : LedgerState) (o : AimObject) : LedgerState :=
  let aim_id := get_aim_object_identifier o
  { st with failure_log := dictPop st.failure_log aim_id,
            sync_synced := st.sync_synced ++ [aim_id] }

/-- The fault sentinel `ACI_FAULT`. -/
def ACI_FAULT : String := "faultInst"

/-- Python `s.find(c)`: index of the first occurrence, `-1` when absent. -/
def pyFind (s : String) (c : Char) : ℤ :=
  match s.toList.findIdx? (fun x => x = c) with
  | some n => (n : ℤ)
  | none => -1

/-- Python slice `s[:i]`, including the negative-index convention. -/
def pySliceTo (s : String) (i : ℤ) : String :=
  if 0 ≤ i then ⟨s.toList.take i.toNat⟩
  else ⟨s.toList.take (s.toList.length - (-i).toNat)⟩

/-- Python slice `s[i:]` for a non-negative index. -/
def pySliceFrom (s : String) (i : ℕ) : String :=
  ⟨s.toList.drop i⟩

/-- Embedding of `_dissect_key`: `('apicType', [identity list])` where the
type is `key[-1][:key[-1].find('|')]` and each identity is
`x[x.find('|') + 1:]`. Indexing `key[-1]` on an empty key raises, hence
`none`. -/
def dissect_key (key : HKey) : Option (String × List String) :=
  match key.getLast? with
  | none => none
  | some lastSeg =>
      some (pySliceTo lastSeg (pyFind lastSeg '|'),
            key.map (fun x => pySliceFrom x (pyFind x '|' + 1).toNat))

/-- A resource class drawn from `converter.resource_map` (the code projects
`resource_map[aci_type][0]['resource']`; the embedding maps the ACI type
directly to the class): class name plus identity attribute names. -/
structure ResKlass where
  class_name : String
  identity_attributes : List String
deriving DecidableEq, Repr

/-- An AIM resource or fault as `get_resources`/`push_resources` handle it:
class name, identity attribute/value pairs in declaration order, and the
fault code exactly when the object is an `aim_status.AciFault`. -/
structure AimRes where
  klass : String
  identity : List (String × String)
  fault_code : Option String
deriving DecidableEq, Repr

/-- One element of a dedup identity tuple: the code builds tuples of
`(attribute, value)` pairs, and for fault keys appends the two bare strings
`'fault'` and the fault code (`id_tuple += ('fault', fault_code)`). -/
inductive IdElem
  | pair (attr val : String)
  | lit (s : String)
deriving DecidableEq, Repr

/-- A dedup identity tuple. -/
abbrev IdTuple := List IdElem

/-- Python truthiness of the `fault_code` variable (`None` and the empty
string are falsy). -/
def pyTruthyStr : Option String → Bool
  | none => false
  | some s => !(s = "")

/-- Embedding of `klass(**dict((y, dissected[1][x]) for x, y in
enumerate(klass.identity_attributes)))`: each identity attribute is bound to
the positional identity; a too-short identity list raises `IndexError`. -/
def build_resource (k : ResKlass) (ids : List String) : Option AimRes :=
  if k.identity_attributes.length ≤ ids.length then
    some ⟨k.class_name, k.identity_attributes.zip ids, none⟩
  else none

/-- The dedup tuple
`tuple((x, getattr(res, x)) for x in res.identity_attributes)`, extended for
truthy fault codes with the bare entries `'fault'` and the code. -/
def id_tuple_of (r : AimRes) (fault_code : Option String) : IdTuple :=
  r.identity.map (fun p => IdElem.pair p.1 p.2) ++
    (if pyTruthyStr fault_code then
      [IdElem.lit "fault", IdElem.lit ((fault_code).getD "")]
     else [])

/-- Result of `manager.get`: the stored object, `None`, or the
`UnknownResourceType` exception. -/
inductive MgrGetResult
  | found (r : AimRes)
  | missing
  | unknown_type
deriving DecidableEq, Repr

/-- Result of `manager.get_status`: a status carrying its fault list, `None`,
or the `UnknownResourceType` exception. -/
inductive MgrStatusResult
  | status (faults : List AimRes)
  | missing
  | unknown_type
deriving DecidableEq, Repr

/-- Collaborators of `AimDbUniverse.get_resources`: the converter's
`resource_map` and the AIM manager's read operations. -/
structure GetResEnv where
  resource_map : List (String × ResKlass)
  mgr_get : AimRes → MgrGetResult
  mgr_get_status : AimRes → MgrStatusResult

/-- Exceptions that escape `get_resources` (nothing catches them there). -/
inductive PyErr
  | key_error (k : String)
  | index_error
deriving DecidableEq, Repr

/-- Shared tail of the key-resolution flow, over the final `fault_code` and
`dissected` values: look the type up in `resource_map` (`KeyError` when
absent), build the shell resource, and form its dedup tuple. -/
def resolve_dissected (env : GetResEnv) (fault_code : Option String)
    (dissected : String × List String) :
    Except PyErr (Option String × AimRes × IdTuple) :=
  match dictGet env.resource_map dissected.1 with
  | none => Except.error (PyErr.key_error dissected.1)
  | some klass =>
      match build_resource klass dissected.2 with
      | none => Except.error PyErr.index_error
      | some res => Except.ok (fault_code, res, id_tuple_of res fault_code)

/-- Front half of one `get_resources` iteration, everything before the
`id_tuple not in id_set` test: dissect the key, peel the fault sentinel
(re-dissecting `key[:-1]` and keeping `dissected[1][-1]` as the fault code),
then resolve the dissected value. None of this depends on the dedup set. -/
def resolve_key (env : GetResEnv) (key : HKey) :
    Except PyErr (Option String × AimRes × IdTuple) :=
  match dissect_key key with
  | none => Except.error PyErr.index_error
  | some d0 =>
      if d0.1 = ACI_FAULT then
        match dissect_key key.dropLast with
        | none => Except.error PyErr.index_error
        | some d1 => resolve_dissected env (some (d0.2.getLast?.getD "")) d1
      else resolve_dissected env none d0

/-- Back half of one `get_resources` iteration: the dedup test and the
manager reads inside the `try`/`except UnknownResourceType`. The value is the
`(id_tuple, resource)` pair appended to `result` (`id_set.add` happens at the
same sites), or `none` when the key contributes nothing. A fault key scans
`res_status.faults` for the first matching fault code; an
`UnknownResourceType` is logged and the identity-only shell is emitted. -/
def fetch_key_resource (env : GetResEnv) (id_set : List IdTuple)
    (pre : Option String × AimRes × IdTuple) : Option (IdTuple × AimRes) :=
  let fault_code := pre.1
  let res := pre.2.1
  let idt := pre.2.2
  if idt ∈ id_set then none
  else if pyTruthyStr fault_code then
    match env.mgr_get_status res with
    | .unknown_type => some (idt, res)
    | .missing => none
    | .status faults =>
        match faults.find? (fun f => f.fault_code == fault_code) with
        | some f => some (idt, f)
        | none => none
  else
    match env.mgr_get res with
    | .unknown_type => some (idt, res)
    | .missing => none
    | .found r => some (idt, r)

/-- The `get_resources` loop: thread the dedup set through the keys in order,
collecting the emitted `(id_tuple, resource)` pairs; an uncaught `KeyError`
or `IndexError` aborts the whole call. -/
def get_resources_aux (env : GetResEnv) :
    List IdTuple → List HKey → Except PyErr (List (IdTuple × AimRes))
  | _, [] => Except.ok []
  | id_set, key :: keys =>
      match resolve_key env key with
      | Except.error e => Except.error e
      | Except.ok pre =>
          match fetch_key_resource env id_set pre with
          | none => get_resources_aux env id_set keys
          | some p =>
              match get_resources_aux env (p.1 :: id_set) keys with
              | Except.error e => Except.error e
              | Except.ok rest => Except.ok (p :: rest)

/-- Embedding of `AimDbUniverse.get_resources`: the `result` list. -/
def get_resources (env : GetResEnv) (keys : List HKey) :
    Except PyErr (List AimRes) :=
  (get_resources_aux env [] keys).map (fun l => l.map Prod.snd)

/-- Embedding of `AimDbUniverse.get_resources_for_delete`: it delegates to
`get_resources`. -/
def get_resources_for_delete (env : GetResEnv) (keys : List HKey) :
    Except PyErr (List AimRes) :=
  get_resources env keys

/-- Embedding of `HashTreeStoredUniverse.get_resource`: the batch call on a
one-element list. -/
def get_resource (env : GetResEnv) (key : HKey) : Except PyErr (List AimRes) :=
  get_resources env [key]

/-- Embedding of `HashTreeStoredUniverse.get_resource_for_delete`. -/
def get_resource_for_delete (env : GetResEnv) (key : HKey) :
    Except PyErr (List AimRes) :=
  get_resources_for_delete env [key]

/-- Manager writes performed by `push_resources`. -/
inductive PushAction
  | created (r : AimRes)
  | deleted (r : AimRes)
  | fault_set (parent fault : AimRes)
  | fault_cleared (parent fault : AimRes)
deriving DecidableEq, Repr

/-- Collaborators of `AimDbUniverse.push_resources`: the ACI-to-AIM converter
(`convert([item])`), the fault-parent recovery `_retrieve_fault_parent`, and
the four manager mutations; every one of them may raise, carrying a message
string. -/
structure PushEnv where
  convert : AimRes → Except String (List AimRes)
  retrieve_fault_parent : AimRes → Except String AimRes
  mgr_create : AimRes → Except String Unit
  mgr_delete : AimRes → Except String Unit
  mgr_set_fault : AimRes → AimRes → Except String Unit
  mgr_clear_fault : AimRes → AimRes → Except String Unit

/-- Handling of one converted resource inside the per-item `try` of
`push_resources`: faults (`isinstance(resource, aim_status.AciFault)`, here a
present fault code) recover their parent and go through
`set_fault`/`clear_fault` keyed by the method; other resources go through
`create(overwrite=True)`/`delete`. -/
def push_one_resource (env : PushEnv) (method : String) (r : AimRes) :
    Except String PushAction :=
  if r.fault_code.isSome then do
    let parent ← env.retrieve_fault_parent r
    if method = "create" then do
      let _ ← env.mgr_set_fault parent r
      Except.ok (PushAction.fault_set parent r)
    else do
      let _ ← env.mgr_clear_fault parent r
      Except.ok (PushAction.fault_cleared parent r)
  else if method = "create" then do
    let _ ← env.mgr_create r
    Except.ok (PushAction.created r)
  else do
    let _ ← env.mgr_delete r
    Except.ok (PushAction.deleted r)

/-- The inner `for resource in converted` loop: stop at the first exception;
writes already performed stand. -/
def push_converted (env : PushEnv) (method : String) :
    List AimRes → List PushAction × Option String
  | [] => ([], none)
  | r :: rs =>
      match push_one_resource env method r with
      | Except.error e => ([], some e)
      | Except.ok a =>
          let rest := push_converted env method rs
          (a :: rest.1, rest.2)

/-- One iteration of the per-item loop of `push_resources`, whole body inside
the `try`: delete items are already native (`converted = [item]`), create
items run through the converter. -/
def push_item (env : PushEnv) (method : String) (item : AimRes) :
    List PushAction × Option String :=
  if method = "delete" then push_converted env method [item]
  else
    match env.convert item with
    | Except.error e => ([], some e)
    | Except.ok converted => push_converted env method converted

/-- Entries of the per-item `except` clause's error log: method, item,
message. -/
abbrev PushLog := List (String × AimRes × String)

/-- The per-method item loop of `push_resources`, collecting performed writes
and logged per-item exceptions. -/
def push_items (env : PushEnv) (method : String) :
    List AimRes → List PushAction × PushLog
  | [] => ([], [])
  | item :: items =>
      let r := push_item env method item
      let rest := push_items env method items
      (r.1 ++ rest.1,
       (match r.2 with
        | some e => [(method, item, e)]
        | none => []) ++ rest.2)

/-- Embedding of `AimDbUniverse.push_resources`: iterate the `create` bucket
then the `delete` bucket (the order the map is built with in `_reconcile`),
catching and logging every per-item exception. -/
def push_resources (env : PushEnv) (create_bucket delete_bucket : List AimRes) :
    List PushAction × PushLog :=
  let c := push_items env "create" create_bucket
  let d := push_items env "delete" delete_bucket
  (c.1 ++ d.1, c.2 ++ d.2)

/-- Positional arguments the initializer methods receive: an AIM store
reference or a configuration manager (exposing `get_option` for
`max_operation_retry` and `retry_cooldown`). -/
inductive PyVal
  | store_ref (name : String)
  | conf_mgr (max_operation_retry : ℕ) (retry_cooldown : ℤ)
deriving DecidableEq, Repr

/-- References a successful `HashTreeStoredUniverse.initialize` stores on
self before returning self. -/
structure HashTreeUniverseRefs where
  store : PyVal
  max_create_retry : ℕ
  retry_cooldown : ℤ
  failure_log : List (AimId × (ℕ × Option ℤ))
  state0 : List (Tenant × StructuredHashTree)
deriving DecidableEq, Repr

/-- Embedding of `HashTreeStoredUniverse.initialize(self, store, conf_mgr)`
at Python's calling convention: the positional argument list is checked for
arity before the body runs (`TypeError` otherwise); reading the two options
off anything but a configuration manager raises `AttributeError`. On success
the references are stored and self is returned, represented by the stored
fields. -/
def hash_tree_universe_init : List PyVal → Except String HashTreeUniverseRefs
  | [st, PyVal.conf_mgr m r] => Except.ok ⟨st, m, r, [], []⟩
  | [_, _] => Except.error "AttributeError"
  | _ => Except.error "TypeError"

/-- Embedding of `AimDbUniverse.initialize(self, db_session)`: the body first
runs `super(AimDbUniverse, self).initialize(db_session)`, passing one
positional argument where the base method requires two, so the call raises
`TypeError` before any AIM-DB field is set. -/
def aim_db_universe_init (db_session : PyVal) : Except String HashTreeUniverseRefs :=
  hash_tree_universe_init [db_session]

/-- Reading `root_full_hash` on a structured tree: with no root the attribute
access raises `AttributeError` (the `# Empty tree` case in
`get_optimized_state`); otherwise it is the root's full hash. -/
def tree_root_full_hash (t : StructuredHashTree) : Except String String :=
  match t.root with
  | some n => Except.ok n.full_hash
  | none => Except.error "AttributeError"

/-- Request construction of `AimDbUniverse.get_optimized_state`: one entry per
served tenant (`self._served_tenants`, a set — modelled by deduplicating the
served list), valued `None` unless the tenant is in `other_state` and reading
its `root_full_hash` succeeds. -/
def optimized_state_request (served : List Tenant)
    (other_state : List (Tenant × StructuredHashTree)) :
    List (Tenant × Option String) :=
  served.dedup.map (fun tenant =>
    (tenant,
     match dictGet other_state tenant with
     | none => none
     | some tr =>
         match tree_root_full_hash tr with
         | Except.ok h => some h
         | Except.error _ => none))

/-- Embedding of `AimDbUniverse.get_optimized_state`: hand the request to the
tree manager's `find_changed`, a collaborator abstracted as a function of the
request. -/
def get_optimized_state
    (find_changed : List (Tenant × Option String) → List (Tenant × StructuredHashTree))
    (served : List Tenant) (other_state : List (Tenant × StructuredHashTree)) :
    List (Tenant × StructuredHashTree) :=
  find_changed (optimized_state_request served other_state)

/-! ## Helper lemmas -/

/-- Lookup in an association list built pointwise over a key list. -/
lemma dictGet_map_self {β : Type} (v : Tenant → β) (l : List Tenant) (t : Tenant) :
    dictGet (l.map (fun x => (x, v x))) t = if t ∈ l then some (v t) else none := by
  induction l with
  | nil => simp [dictGet]
  | cons a l ih =>
      simp only [List.map_cons, dictGet, List.mem_cons]
      by_cases h : a = t
      · subst h
        simp
      · rw [if_neg h, ih]
        by_cases ht : t ∈ l
        · rw [if_pos ht, if_pos (Or.inr ht)]
        · rw [if_neg ht, if_neg]
          rintro (rfl | hmem)
          · exact h rfl
          · exact ht hmem

/-! ## C8: initialization -/

/-- C8 (code behaviour at the failing input): every call of
`AimDbUniverse.initialize` raises `TypeError`, because its body runs
`super(AimDbUniverse, self).initialize(db_session)` with one positional
argument where `HashTreeStoredUniverse.initialize` requires
`(store, conf_mgr)`; no reference is stored and self is never returned. -/
theorem aim_db_init_type_error (db_session : PyVal) :
    aim_db_universe_init db_session = Except.error "TypeError" := by
  rfl

/-! ## C9: single-key operations -/

/-- C9: `get_resource` and `get_resource_for_delete` are definitionally the
batch operations applied to a one-element key list, so they return a list of
resources, not a bare resource. -/
theorem single_key_ops_are_batch_ops (env : GetResEnv) (key : HKey) :
    get_resource env key = get_resources env [key] ∧
    get_resource_for_delete env key = get_resources_for_delete env [key] :=
  ⟨rfl, rfl⟩

/-! ## C10: get_optimized_state request -/

/-- C10: the `find_changed` request of `AimDbUniverse.get_optimized_state` is
built exactly over the served tenant set: a served tenant maps to the peer
state's `root_full_hash` (or `None` when the tenant is absent from the peer
state or reading the hash raises), and an unserved tenant is never in the
request. -/
theorem optimized_state_request_exactly_served (served : List Tenant)
    (other_state : List (Tenant × StructuredHashTree)) (t : Tenant) :
    dictGet (optimized_state_request served other_state) t =
      if t ∈ served then
        some (match dictGet other_state t with
              | none => none
              | some tr =>
                  match tree_root_full_hash tr with
                  | Except.ok h => some h
                  | Except.error _ => none)
      else none := by
  unfold optimized_state_request
  rw [dictGet_map_self]
  simp [List.mem_dedup]

/-! ## C2: retry escalation scenario -/

/-- Sample AIM object shared by the ledger scenarios. -/
def sampleObj : AimObject :=
  ⟨"BridgeDomain", ["tenant_name", "name"], [("tenant_name", "t1"), ("name", "bd1")]⟩

/-- Ledger identity of `sampleObj`. -/
def sampleId : AimId := get_aim_object_identifier sampleObj

/-- State after the first transient creation failure of the C2 scenario
(`max_operation_retry = 3`, `retry_cooldown = 10`, failure at t = 0). -/
def c2_st1 : LedgerState :=
  creation_failed 3 10 LedgerState.init sampleObj "r" .operation_transient 0

/-- State after the second failure, at t = 11. -/
def c2_st2 : LedgerState :=
  creation_failed 3 10 c2_st1 sampleObj "r" .operation_transient 11

/-- State after the third failure, at t = 22. -/
def c2_st3 : LedgerState :=
  creation_failed 3 10 c2_st2 sampleObj "r" .operation_transient 22

/-- State after the fourth failure, at t = 33. -/
def c2_st4 : LedgerState :=
  creation_failed 3 10 c2_st3 sampleObj "r" .operation_transient 33

/-- C2 counterexample: the fourth `creation_failed` call at t = 33 is not a
no-op — the third call cleared the failure record, so the fourth starts a
fresh record `(1, 33)`, changing the failure ledger. -/
theorem c2_fourth_call_changes_ledger :
    c2_st4.failure_log ≠ c2_st3.failure_log := by decide

/-- C2 (amended): with `max_operation_retry = 3` and `retry_cooldown = 10`,
four transient `creation_failed` calls at t = 0, 11, 22, 33 mark the object
`sync_error` exactly on the third call (t = 22) and clear its failure record
there; the fourth call leaves the sync state unchanged but re-creates the
failure record with count 1 and timestamp 33. -/
theorem c2_retry_escalation :
    c2_st1.sync_errors = [] ∧ c2_st1.failure_log = [(sampleId, (1, some 0))] ∧
    c2_st2.sync_errors = [] ∧ c2_st2.failure_log = [(sampleId, (2, some 11))] ∧
    c2_st3.sync_errors = [(sampleId, "r")] ∧ c2_st3.failure_log = [] ∧
    c2_st4.sync_errors = c2_st3.sync_errors ∧
    c2_st4.failure_log = [(sampleId, (1, some 33))] :=
  ⟨by decide, by decide, by decide, by decide, by decide, by decide, by decide, by decide⟩

/-! ## C4: cooldown window -/

/-- C4 (amended): for a failure record whose stored timestamp is nonzero, a
transient or unknown failure reported strictly less than `retry_cooldown`
seconds after that timestamp leaves the whole universe state — failure record
included — unchanged, and in particular does not mark the object
`sync_error`. (A zero timestamp is falsy in Python and treated as absent; see
the counterexample.) -/
theorem retry_within_cooldown_unchanged (maxr : ℕ) (cooldown : ℤ)
    (st : LedgerState) (o : AimObject) (reason : String) (err : AimErrorKind)
    (now : ℤ) (n : ℕ) (l : ℤ)
    (herr : err = .operation_transient ∨ err = .unknown)
    (hrec : dictGet st.failure_log (get_aim_object_identifier o) = some (n, some l))
    (hl : l ≠ 0) (hcool : now - l < cooldown) :
    creation_failed maxr cooldown st o reason err now = st := by
  have hcond : ¬(l = 0 ∨ now - l ≥ cooldown) := by
    rintro (h | h)
    · exact hl h
    · exact absurd hcool (not_lt.mpr h)
  have hretry : retry_until_max maxr cooldown st o reason now = st := by
    simp only [retry_until_max, hrec, Option.getD_some]
    exact if_neg hcond
  rcases herr with h | h <;> subst h <;>
    simpa [creation_failed, fail_aim_synchronization] using hretry

/-- State after one transient failure of `sampleObj` at t = 0: the failure
record is `(1, 0)`. -/
def c4_st1 : LedgerState :=
  creation_failed 3 10 LedgerState.init sampleObj "r" .operation_transient 0

/-- State after a further transient failure at t = 5, inside the 10-second
cooldown. -/
def c4_st2 : LedgerState :=
  creation_failed 3 10 c4_st1 sampleObj "r" .operation_transient 5

/-- C4 counterexample: with the record at `(1, 0)`, a failure at t = 5 —
strictly inside the 10-second cooldown window — still bumps the record to
`(2, 5)`, because `not last` treats the stored timestamp 0 as unset. -/
theorem c4_zero_timestamp_bumps :
    dictGet c4_st1.failure_log sampleId = some (1, some 0) ∧
    (5 : ℤ) - 0 < 10 ∧
    c4_st2.failure_log ≠ c4_st1.failure_log := by decide

/-- Ledger state holding a record `(1, 7)` for `sampleObj`. -/
def c4_wit_st : LedgerState := ⟨[(sampleId, (1, some 7))], [], [], false⟩

/-- Witness for `retry_within_cooldown_unchanged`: a transient failure at
t = 12 against a record stamped 7 with cooldown 10 changes nothing. -/
theorem retry_within_cooldown_unchanged_witness :
    creation_failed 3 10 c4_wit_st sampleObj "r" .operation_transient 12 = c4_wit_st :=
  retry_within_cooldown_unchanged 3 10 c4_wit_st sampleObj "r" .operation_transient 12 1 7
    (Or.inl rfl) (by decide) (by decide) (by decide)

/-! ## C1: sync detection and the single push -/

/-- Both accumulated key lists of `_reconcile` are empty exactly when every
tenant common to both states diffs empty. -/
lemma reconcile_diffs_nil_iff {R : Type} (env : ReconcileEnv R)
    (my other : List (Tenant × StructuredHashTree)) :
    ((reconcile_diffs env my other).1 = [] ∧ (reconcile_diffs env my other).2 = []) ↔
      ∀ t ∈ my.map Prod.fst, (dictGet other t).isSome = true →
        (env.diff (dictGetD other t .emptyTree) (dictGetD my t .emptyTree)).add = [] ∧
        (env.diff (dictGetD other t .emptyTree) (dictGetD my t .emptyTree)).remove = [] := by
  unfold reconcile_diffs
  simp only [List.flatten_eq_nil_iff, List.mem_map, List.mem_filter]
  constructor
  · rintro ⟨ha, hr⟩ t ht hsome
    obtain ⟨p, hp, rfl⟩ := ht
    exact ⟨ha _ ⟨p, ⟨hp, hsome⟩, rfl⟩, hr _ ⟨p, ⟨hp, hsome⟩, rfl⟩⟩
  · intro h
    constructor
    · rintro L ⟨p, ⟨hp, hs⟩, rfl⟩
      exact (h p.1 ⟨p, hp, rfl⟩ hs).1
    · rintro L ⟨p, ⟨hp, hs⟩, rfl⟩
      exact (h p.1 ⟨p, hp, rfl⟩ hs).2

/-- C1: `reconcile(other, delete_votes)` returns `False` and never calls
`push_resources` exactly when every tenant in the intersection of the key
sets of `self.state` and `other.get_optimized_state(self.state)` diffs with
empty `add` and `remove`; otherwise it hydrates the accumulated keys
(creates through the peer's `get_resources`, deletes through self's
`get_resources_for_delete`), calls `push_resources` once with the hydrated
map, and returns `True`. -/
theorem reconcile_sync_and_push {R : Type} (env : ReconcileEnv R) (selfId : ℕ)
    (my : List (Tenant × StructuredHashTree)) (dc : VoteMap) :
    reconcile env selfId my dc =
      if ∀ t ∈ my.map Prod.fst,
           (dictGet (env.get_optimized_state my) t).isSome = true →
           (env.diff (dictGetD (env.get_optimized_state my) t .emptyTree)
               (dictGetD my t .emptyTree)).add = [] ∧
           (env.diff (dictGetD (env.get_optimized_state my) t .emptyTree)
               (dictGetD my t .emptyTree)).remove = []
      then ⟨false, none,
            reconcile_votes selfId false false my (env.get_optimized_state my) dc⟩
      else ⟨true,
            some (env.get_resources
                    (reconcile_diffs env my (env.get_optimized_state my)).1,
                  env.get_resources_for_delete
                    (reconcile_diffs env my (env.get_optimized_state my)).2),
            reconcile_votes selfId false false my (env.get_optimized_state my) dc⟩ := by
  unfold reconcile reconcile_impl
  exact if_congr (reconcile_diffs_nil_iff env my (env.get_optimized_state my)) rfl rfl

/-! ## C3: deletion voting for rootless tenants -/

/-- A vote-loop step for a pair whose tenant differs from `t` does not change
the votes at `t`. -/
lemma reconcile_vote_step_ne (selfId : ℕ) (sd av : Bool)
    (other : List (Tenant × StructuredHashTree)) (vm : VoteMap)
    (p : Tenant × StructuredHashTree) (t : Tenant) (h : p.1 ≠ t) :
    reconcile_vote_step selfId sd av other vm p t = vm t := by
  have h' : ¬(t = p.1) := fun hc => h hc.symm
  unfold reconcile_vote_step vote_tenant_for_deletion discard_vote
  split_ifs <;> simp [h']

/-- The vote loop does not change the votes of a tenant outside
`my_state`. -/
lemma reconcile_votes_preserve (selfId : ℕ) (sd av : Bool)
    (my other : List (Tenant × StructuredHashTree)) (vm : VoteMap) (t : Tenant)
    (h : t ∉ my.map Prod.fst) :
    reconcile_votes selfId sd av my other vm t = vm t := by
  induction my generalizing vm with
  | nil => rfl
  | cons p rest ih =>
      simp only [List.map_cons, List.mem_cons, not_or] at h
      have hstep : reconcile_votes selfId sd av (p :: rest) other vm =
          reconcile_votes selfId sd av rest other
            (reconcile_vote_step selfId sd av other vm p) := rfl
      rw [hstep, ih _ h.2, reconcile_vote_step_ne]
      exact fun hc => h.1 hc.symm

/-- With both flags unset, the vote loop resolves the votes at a rootless
tenant of `my_state` to a definite value: self's vote is added when the peer
state lacks the tenant or has it rootless, and discarded otherwise. -/
lemma reconcile_votes_at_rootless (selfId : ℕ)
    (other : List (Tenant × StructuredHashTree)) :
    ∀ (my : List (Tenant × StructuredHashTree)) (vm : VoteMap)
      (t : Tenant) (tree : StructuredHashTree),
      (my.map Prod.fst).Nodup →
      dictGet my t = some tree →
      tree.root = none →
      reconcile_votes selfId false false my other vm t =
        if (dictGet other t).isNone || (dictGetD other t .emptyTree).root.isNone then
          insert selfId (vm t)
        else (vm t).erase selfId := by
  intro my
  induction my with
  | nil => intro vm t tree _ hmem _; cases hmem
  | cons p rest ih =>
      intro vm t tree hnd hmem hroot
      simp only [List.map_cons, List.nodup_cons] at hnd
      by_cases hp : p.1 = t
      · have hval : p.2 = tree := by
          unfold dictGet at hmem
          rw [if_pos hp] at hmem
          exact Option.some.inj hmem
        subst hp
        have hnotin : p.1 ∉ rest.map Prod.fst := hnd.1
        have hstep : reconcile_votes selfId false false (p :: rest) other vm =
            reconcile_votes selfId false false rest other
              (reconcile_vote_step selfId false false other vm p) := rfl
        rw [hstep, reconcile_votes_preserve selfId false false rest other _ _ hnotin]
        unfold reconcile_vote_step
        rw [hval]
        simp only [Bool.false_eq_true, false_and, Bool.or_self, Bool.false_and,
          Bool.or_false, if_false, hroot, Option.isNone_none, if_true]
        by_cases hc : ((dictGet other p.1).isNone ||
            (dictGetD other p.1 .emptyTree).root.isNone) = true
        · rw [if_pos hc, if_pos hc]
          unfold vote_tenant_for_deletion
          simp
        · rw [if_neg hc, if_neg hc]
          unfold discard_vote
          simp
      · have hmem' : dictGet rest t = some tree := by
          unfold dictGet at hmem
          rwa [if_neg hp] at hmem
        have hstep : reconcile_votes selfId false false (p :: rest) other vm =
            reconcile_votes selfId false false rest other
              (reconcile_vote_step selfId false false other vm p) := rfl
        rw [hstep, ih _ t tree hnd.2 hmem' hroot, reconcile_vote_step_ne _ _ _ _ _ _ _ hp]

/-- The vote map `reconcile` returns is the result of the vote loop. -/
lemma reconcile_votes_eq {R : Type} (env : ReconcileEnv R) (selfId : ℕ)
    (my : List (Tenant × StructuredHashTree)) (dc : VoteMap) :
    (reconcile env selfId my dc).votes =
      reconcile_votes selfId false false my (env.get_optimized_state my) dc := by
  unfold reconcile reconcile_impl
  simp only []
  split <;> rfl

/-- C3: after one `reconcile` call with `skip_dummy` and
`always_vote_deletion` unset, for every tenant of `self.state` whose tree has
no root: self is a member of `delete_votes[t]` when the peer's optimized
state lacks the tenant or its tree also has no root (the votes become the old
votes plus self); otherwise self has been discarded (the votes become the old
votes minus self — removed when previously present, and never present twice
since the votes form a set). -/
theorem reconcile_rootless_tenant_vote {R : Type} (env : ReconcileEnv R)
    (selfId : ℕ) (my : List (Tenant × StructuredHashTree)) (dc : VoteMap)
    (t : Tenant) (tree : StructuredHashTree)
    (hnd : (my.map Prod.fst).Nodup)
    (hmem : dictGet my t = some tree)
    (hroot : tree.root = none) :
    if (dictGet (env.get_optimized_state my) t).isNone ||
       (dictGetD (env.get_optimized_state my) t .emptyTree).root.isNone then
      selfId ∈ (reconcile env selfId my dc).votes t ∧
      (reconcile env selfId my dc).votes t = insert selfId (dc t)
    else
      selfId ∉ (reconcile env selfId my dc).votes t ∧
      (reconcile env selfId my dc).votes t = (dc t).erase selfId := by
  have hv := reconcile_votes_eq env selfId my dc
  have hmain := reconcile_votes_at_rootless selfId (env.get_optimized_state my)
    my dc t tree hnd hmem hroot
  by_cases hc : ((dictGet (env.get_optimized_state my) t).isNone ||
      (dictGetD (env.get_optimized_state my) t .emptyTree).root.isNone) = true
  · rw [if_pos hc]
    rw [if_pos hc] at hmain
    rw [hv, hmain]
    exact ⟨Finset.mem_insert_self selfId (dc t), rfl⟩
  · rw [if_neg hc]
    rw [if_neg hc] at hmain
    rw [hv, hmain]
    exact ⟨Finset.not_mem_erase selfId (dc t), rfl⟩

/-- Trivial reconcile environment for the C3 witness: the peer's optimized
state is empty and diffs are empty. -/
def c3_env : ReconcileEnv Unit :=
  ⟨fun _ => [], fun _ _ => ⟨[], []⟩, fun _ => [], fun _ => []⟩

/-- A single served tenant with no state. -/
def c3_my : List (Tenant × StructuredHashTree) := [("t1", ⟨none⟩)]

/-- Witness for `reconcile_rootless_tenant_vote`: with an empty peer state,
universe 0 votes tenant `t1` for deletion. -/
theorem reconcile_rootless_tenant_vote_witness :
    0 ∈ (reconcile c3_env 0 c3_my (fun _ => ∅)).votes "t1" ∧
    (reconcile c3_env 0 c3_my (fun _ => ∅)).votes "t1" = insert 0 (∅ : Finset ℕ) := by
  have h := reconcile_rootless_tenant_vote c3_env 0 c3_my (fun _ => ∅) "t1" ⟨none⟩
    (by decide) (by decide) rfl
  rw [if_pos (by decide)] at h
  exact h

/-! ## C7: dedup of identity tuples -/

/-- A key the loop emits was admitted under its own dedup tuple, which was
not yet in the dedup set. -/
lemma fetch_key_resource_some (env : GetResEnv) (id_set : List IdTuple)
    (pre : Option String × AimRes × IdTuple) (p : IdTuple × AimRes)
    (h : fetch_key_resource env id_set pre = some p) :
    p.1 = pre.2.2 ∧ pre.2.2 ∉ id_set := by
  by_cases hmem : pre.2.2 ∈ id_set
  · unfold fetch_key_resource at h
    rw [if_pos hmem] at h
    cases h
  · refine ⟨?_, hmem⟩
    unfold fetch_key_resource at h
    rw [if_neg hmem] at h
    split at h
    · split at h
      · exact congrArg Prod.fst (Option.some.inj h).symm
      · cases h
      · split at h
        · exact congrArg Prod.fst (Option.some.inj h).symm
        · cases h
    · split at h
      · exact congrArg Prod.fst (Option.some.inj h).symm
      · cases h
      · exact congrArg Prod.fst (Option.some.inj h).symm

/-- Invariant of the `get_resources` loop: the emitted dedup tuples are
pairwise distinct and disjoint from the incoming dedup set. -/
lemma get_resources_aux_nodup (env : GetResEnv) :
    ∀ (keys : List HKey) (id_set : List IdTuple) (pairs : List (IdTuple × AimRes)),
      get_resources_aux env id_set keys = Except.ok pairs →
      (pairs.map Prod.fst).Nodup ∧ ∀ x ∈ pairs.map Prod.fst, x ∉ id_set := by
  intro keys
  induction keys with
  | nil =>
      intro id_set pairs h
      cases h
      simp
  | cons k ks ih =>
      intro id_set pairs h
      unfold get_resources_aux at h
      cases hres : resolve_key env k with
      | error e => rw [hres] at h; cases h
      | ok pre =>
          rw [hres] at h
          dsimp only at h
          cases hf : fetch_key_resource env id_set pre with
          | none =>
              rw [hf] at h
              exact ih id_set pairs h
          | some p =>
              rw [hf] at h
              dsimp only at h
              cases hrest : get_resources_aux env (p.1 :: id_set) ks with
              | error e => rw [hrest] at h; cases h
              | ok rest =>
                  rw [hrest] at h
                  dsimp only at h
                  cases h
                  obtain ⟨hfst, hfresh⟩ := fetch_key_resource_some env id_set pre p hf
                  obtain ⟨hnd, hnotin⟩ := ih (p.1 :: id_set) rest hrest
                  constructor
                  · rw [List.map_cons, List.nodup_cons]
                    refine ⟨fun hmem => ?_, hnd⟩
                    exact (hnotin p.1 hmem) (List.mem_cons_self _ _)
                  · intro x hx
                    rw [List.map_cons, List.mem_cons] at hx
                    rcases hx with rfl | hx
                    · rw [hfst]; exact hfresh
                    · intro hxin
                      exact (hnotin x hx) (List.mem_cons_of_mem _ hxin)

/-- C7: the resources returned by `get_resources` carry pairwise-distinct
identity tuples (extended with the fault code for fault keys): a key that
resolves to an already-admitted tuple contributes nothing, enforced by the
per-call `id_set`. -/
theorem get_resources_id_tuples_nodup (env : GetResEnv) (keys : List HKey)
    (pairs : List (IdTuple × AimRes))
    (h : get_resources_aux env [] keys = Except.ok pairs) :
    get_resources env keys = Except.ok (pairs.map Prod.snd) ∧
    (pairs.map Prod.fst).Nodup := by
  constructor
  · unfold get_resources
    rw [h]
    rfl
  · exact (get_resources_aux_nodup env keys [] pairs h).1

/-- Environment for the C7 witness: one known type, and a manager whose
`get` returns the requested resource. -/
def c7_env : GetResEnv :=
  ⟨[("fvTenant", ⟨"Tenant", ["name"]⟩)],
   fun r => MgrGetResult.found r, fun _ => MgrStatusResult.missing⟩

/-- Witness for `get_resources_id_tuples_nodup`: two keys resolving to the
same tenant yield one resource under one tuple. -/
theorem get_resources_id_tuples_nodup_witness :
    get_resources c7_env [["fvTenant|t1"], ["fvTenant|t1"]] =
      Except.ok [⟨"Tenant", [("name", "t1")], none⟩] ∧
    (([([IdElem.pair "name" "t1"],
        (⟨"Tenant", [("name", "t1")], none⟩ : AimRes))]).map Prod.fst).Nodup := by
  have h := get_resources_id_tuples_nodup c7_env [["fvTenant|t1"], ["fvTenant|t1"]]
    [([IdElem.pair "name" "t1"], ⟨"Tenant", [("name", "t1")], none⟩)] (by decide)
  simpa using h

/-! ## C5: unknown resource types -/

/-- When every key of the batch passes key resolution, the loop never
aborts. -/
lemma get_resources_aux_ok_of_resolve_ok (env : GetResEnv) :
    ∀ (keys : List HKey) (id_set : List IdTuple),
      (∀ key ∈ keys, (resolve_key env key).isOk = true) →
      ∃ l, get_resources_aux env id_set keys = Except.ok l := by
  intro keys
  induction keys with
  | nil => exact fun id_set _ => ⟨[], rfl⟩
  | cons k ks ih =>
      intro id_set hall
      have hk := hall k (List.mem_cons_self _ _)
      have hks : ∀ key ∈ ks, (resolve_key env key).isOk = true :=
        fun key hkey => hall key (List.mem_cons_of_mem _ hkey)
      cases hres : resolve_key env k with
      | error e => rw [hres] at hk; cases hk
      | ok pre =>
          unfold get_resources_aux
          rw [hres]
          dsimp only
          cases hf : fetch_key_resource env id_set pre with
          | none =>
              dsimp only
              exact ih id_set hks
          | some p =>
              obtain ⟨rest, hrest⟩ := ih (p.1 :: id_set) hks
              dsimp only
              rw [hrest]
              exact ⟨p :: rest, rfl⟩

/-- C5 (amended): when every key's dissected type is present in the
converter's `resource_map` (with enough identity segments, so key resolution
succeeds), `get_resources` never fails the batch; and a key whose constructed
resource the AIM manager rejects with `UnknownResourceType` is handled by the
`except` clause — it contributes its identity-only shell (when its dedup
tuple is new) and every remaining key of the batch is still processed. A type
absent from `resource_map` instead raises an uncaught `KeyError` (see the
counterexample). -/
theorem get_resources_unknown_type_resilient (env : GetResEnv) (keys : List HKey)
    (id_set : List IdTuple) (k : HKey) (ks : List HKey)
    (fc : Option String) (r : AimRes) (idt : IdTuple)
    (hall : ∀ key ∈ keys, (resolve_key env key).isOk = true)
    (hk : resolve_key env k = Except.ok (fc, r, idt))
    (hfresh : idt ∉ id_set)
    (hunk : if pyTruthyStr fc then env.mgr_get_status r = MgrStatusResult.unknown_type
            else env.mgr_get r = MgrGetResult.unknown_type) :
    (∃ l, get_resources env keys = Except.ok l) ∧
    get_resources_aux env id_set (k :: ks) =
      (get_resources_aux env (idt :: id_set) ks).map (fun rest => (idt, r) :: rest) := by
  constructor
  · obtain ⟨l, hl⟩ := get_resources_aux_ok_of_resolve_ok env keys [] hall
    exact ⟨l.map Prod.snd, by unfold get_resources; rw [hl]; rfl⟩
  · have hfetch : fetch_key_resource env id_set (fc, r, idt) = some (idt, r) := by
      unfold fetch_key_resource
      rw [if_neg hfresh]
      by_cases ht : pyTruthyStr fc = true
      · rw [if_pos ht] at hunk ⊢
        rw [hunk]
      · rw [if_neg ht] at hunk ⊢
        rw [hunk]
    cases hrest : get_resources_aux env (idt :: id_set) ks with
    | error e =>
        unfold get_resources_aux
        rw [hk]
        dsimp only
        rw [hfetch]
        dsimp only
        rw [hrest]
        rfl
    | ok rest =>
        unfold get_resources_aux
        rw [hk]
        dsimp only
        rw [hfetch]
        dsimp only
        rw [hrest]
        rfl

/-- Environment for the C5 counterexample: the converter knows only
`fvTenant`. -/
def c5_env : GetResEnv :=
  ⟨[("fvTenant", ⟨"Tenant", ["name"]⟩)],
   fun _ => MgrGetResult.missing, fun _ => MgrStatusResult.missing⟩

/-- C5 counterexample: a key whose dissected type is absent from the
converter's `resource_map` raises an uncaught `KeyError` that fails the whole
batch — the well-formed second key is never processed and no identity-only
shell is produced for the first. -/
theorem c5_unknown_type_fails_batch :
    get_resources c5_env [["bogus|x"], ["fvTenant|t1"]] =
      Except.error (PyErr.key_error "bogus") := by decide

/-- Environment for the C5 witness: a type the converter knows but the AIM
manager rejects as an unknown resource type. -/
def c5_wit_env : GetResEnv :=
  ⟨[("ghost", ⟨"Ghost", ["name"]⟩)],
   fun _ => MgrGetResult.unknown_type, fun _ => MgrStatusResult.missing⟩

/-- Witness for `get_resources_unknown_type_resilient`: a manager-unknown
type contributes its identity-only shell and the batch goes on. -/
theorem get_resources_unknown_type_resilient_witness :
    (∃ l, get_resources c5_wit_env [["ghost|g1"]] = Except.ok l) ∧
    get_resources_aux c5_wit_env [] [["ghost|g1"]] =
      (get_resources_aux c5_wit_env ([IdElem.pair "name" "g1"] :: []) []).map
        (fun rest => ([IdElem.pair "name" "g1"],
          (⟨"Ghost", [("name", "g1")], none⟩ : AimRes)) :: rest) :=
  get_resources_unknown_type_resilient c5_wit_env [["ghost|g1"]] [] ["ghost|g1"] []
    none ⟨"Ghost", [("name", "g1")], none⟩ [IdElem.pair "name" "g1"]
    (by decide) (by decide) (by decide) (by decide)

/-! ## C6: per-item exception handling in push_resources -/

/-- Log contribution of a single item of a `push_resources` batch. -/
def item_log (env : PushEnv) (method : String) (item : AimRes) : PushLog :=
  match (push_item env method item).2 with
  | some e => [(method, item, e)]
  | none => []

/-- The item loop produces exactly the concatenation of the per-item writes
and the concatenation of the per-item log entries. -/
lemma push_items_spec (env : PushEnv) (method : String) (items : List AimRes) :
    push_items env method items =
      ((items.map (fun i => (push_item env method i).1)).flatten,
       (items.map (item_log env method)).flatten) := by
  induction items with
  | nil => rfl
  | cons i is ih =>
      simp only [push_items, ih, item_log, List.map_cons, List.flatten_cons]

/-- Flattening a pointwise-image list in which one element occurs once and
maps to a singleton while every other element maps to `[]` yields that
singleton. -/
lemma flatten_map_single {α β : Type} [DecidableEq α] [BEq α] [LawfulBEq α]
    (f : α → List β)
    (l : List α) (a : α) (b : β)
    (hcount : l.count a = 1) (hfa : f a = [b])
    (hothers : ∀ x ∈ l, x ≠ a → f x = []) :
    (l.map f).flatten = [b] := by
  induction l with
  | nil => simp at hcount
  | cons x xs ih =>
      by_cases hx : x = a
      · subst hx
        rw [List.count_cons_self] at hcount
        have hxs : xs.count x = 0 := by omega
        have hnotmem : x ∉ xs := List.count_eq_zero.mp hxs
        have hflat : (xs.map f).flatten = [] := by
          rw [List.flatten_eq_nil_iff]
          rintro L hL
          rw [List.mem_map] at hL
          obtain ⟨y, hy, rfl⟩ := hL
          refine hothers y (List.mem_cons_of_mem _ hy) ?_
          rintro rfl
          exact hnotmem hy
        simp [hfa, hflat]
      · have h1 : f x = [] := hothers x (List.mem_cons_self _ _) hx
        have hcount' : xs.count a = 1 := by
          rwa [List.count_cons_of_ne (fun hc => hx hc.symm)] at hcount
        simp only [List.map_cons, List.flatten_cons, h1, List.nil_append]
        exact ih hcount' (fun y hy hne => hothers y (List.mem_cons_of_mem _ hy) hne)

/-- C6: if exactly one item of a `push_resources` call raises — it occurs once
among the method-tagged items and every other item processes without
exception — then that exception is caught and logged as the only log entry,
and every other item of the batch is still fully processed: the performed
writes are the concatenation of every item's per-item writes, in batch
order. -/
theorem push_resources_single_raise (env : PushEnv)
    (create_bucket delete_bucket : List AimRes) (m0 : String) (i0 : AimRes)
    (e : String)
    (hcount : ((create_bucket.map (fun i => (("create" : String), i)) ++
        delete_bucket.map (fun i => (("delete" : String), i))).count (m0, i0)) = 1)
    (he : (push_item env m0 i0).2 = some e)
    (hothers : ∀ p ∈ create_bucket.map (fun i => (("create" : String), i)) ++
        delete_bucket.map (fun i => (("delete" : String), i)),
        p ≠ (m0, i0) → (push_item env p.1 p.2).2 = none) :
    (push_resources env create_bucket delete_bucket).2 = [(m0, i0, e)] ∧
    (push_resources env create_bucket delete_bucket).1 =
      (create_bucket.map (fun i => (push_item env "create" i).1)).flatten ++
      (delete_bucket.map (fun i => (push_item env "delete" i).1)).flatten := by
  have hspec_c := push_items_spec env "create" create_bucket
  have hspec_d := push_items_spec env "delete" delete_bucket
  constructor
  · have hlog : (push_resources env create_bucket delete_bucket).2 =
        ((create_bucket.map (fun i => (("create" : String), i)) ++
          delete_bucket.map (fun i => (("delete" : String), i))).map
            (fun p => item_log env p.1 p.2)).flatten := by
      unfold push_resources
      rw [hspec_c, hspec_d]
      simp only [List.map_append, List.map_map, List.flatten_append]
      rfl
    rw [hlog]
    refine flatten_map_single _ _ (m0, i0) (m0, i0, e) hcount ?_ ?_
    · unfold item_log
      rw [he]
    · intro p hp hne
      unfold item_log
      rw [hothers p hp hne]
  · unfold push_resources
    rw [hspec_c, hspec_d]

/-- Environment for the C6 witness: converting the item of class `bad`
raises; every manager write succeeds. -/
def c6_env : PushEnv :=
  ⟨fun r => if r.klass = "bad" then Except.error "boom" else Except.ok [r],
   fun r => Except.ok r,
   fun _ => Except.ok (), fun _ => Except.ok (),
   fun _ _ => Except.ok (), fun _ _ => Except.ok ()⟩

/-- A well-behaved create item. -/
def c6_good : AimRes := ⟨"Tenant", [("name", "t1")], none⟩

/-- The single raising item. -/
def c6_bad : AimRes := ⟨"bad", [], none⟩

/-- A well-behaved delete item. -/
def c6_del : AimRes := ⟨"Tenant", [("name", "t2")], none⟩

/-- Witness for `push_resources_single_raise`: the one raising create item is
logged and the other create and delete items are still applied. -/
theorem push_resources_single_raise_witness :
    (push_resources c6_env [c6_good, c6_bad] [c6_del]).2 =
      [("create", c6_bad, "boom")] ∧
    (push_resources c6_env [c6_good, c6_bad] [c6_del]).1 =
      ([c6_good, c6_bad].map (fun i => (push_item c6_env "create" i).1)).flatten ++
      ([c6_del].map (fun i => (push_item c6_env "delete" i).1)).flatten :=
  push_resources_single_raise c6_env [c6_good, c6_bad] [c6_del] "create" c6_bad "boom"
    (by decide) (by decide) (by decide)

end Aim
